import Mathlib

/-!
# JSocket chess client (`clientApp/script.js`): state-synchronisation and input layer

A shallow embedding of the browser client.  The model keeps the five module-level
variables of the script (`currentBoardState`, `selectedSquare`, `myPlayerRole`,
`isMyTurn`, `lastMoveSquares`), the children of the chessboard element as rendered by
`drawBoard`, the promotion chooser with the squares captured by its button listeners,
the elements of class `promotion-piece` that a frame's text has put into the game-end
overlay, and the trace of strings handed to `sendMove`.

Text content and styling of the status, turn, role and log elements are not tracked,
but the string conversions that set them are, since they throw for values that cannot
be converted.  The host page is taken to provide the elements the script looks up
(`chessboard`, `.board-container`, ...).  The browser's HTML parser, which turns the
game-end message into elements, is a component `html` of the client state; of the
elements it builds the model keeps what the script later queries, the `new-game-btn`
button and the elements of class `promotion-piece`.

A handler that throws keeps the assignments made before the throw, so handlers return
an `Outcome`: the state they leave behind and whether they raised.
-/

namespace JSocket

/-! ## JavaScript values -/

/-- A JavaScript string, as its sequence of UTF-16 code units. -/
abbrev JStr := List Nat

/-- Code units of a string literal (all literals of the script are in the basic plane). -/
def js (s : String) : JStr := s.toList.map Char.toNat

/-- The values `JSON.parse` can return, plus `undefined` for absent properties.
Numbers are kept as integers: the script tests numbers for being zero and for being
equal to `4` or `8`, and prints them into text. -/
inductive JVal where
  | undefined : JVal
  | null : JVal
  | bool (b : Bool) : JVal
  | num (n : Int) : JVal
  | str (s : JStr) : JVal
  | arr (items : List JVal) : JVal
  | obj (props : List (JStr × JVal)) : JVal

/-- JavaScript truthiness (`if (v)`, `!v`, `v && ...`). -/
def truthy : JVal → Bool
  | .undefined => false
  | .null => false
  | .bool b => b
  | .num n => n != 0
  | .str s => !s.isEmpty
  | .arr _ => true
  | .obj _ => true

/-- Own-property lookup in a parsed object; `props` lists each own property once. -/
def lookupProp : List (JStr × JVal) → JStr → JVal
  | [], _ => .undefined
  | (k, v) :: rest, key => if k = key then v else lookupProp rest key

/-- The value of `v.name` for a property name other than `length` that no prototype
defines (`message`, `role`, `board`, `type`, `move`, ...); `v` is not null/undefined. -/
def getProp (v : JVal) (name : String) : JVal :=
  match v with
  | .obj props => lookupProp props (js name)
  | _ => .undefined

/-- The value of `v.length`. -/
def jsLength : JVal → JVal
  | .str s => .num s.length
  | .arr items => .num items.length
  | .obj props => lookupProp props (js "length")
  | _ => .undefined

/-- The value of `v[i]` for a non-negative integer `i` and `v` not null/undefined. -/
def getIndex (v : JVal) (i : Nat) : JVal :=
  match v with
  | .arr items => (items.get? i).getD .undefined
  | .str s => match s.get? i with
    | some u => .str [u]
    | none => .undefined
  | .obj props => lookupProp props (js (toString i))
  | _ => .undefined

/-- The test `v === "literal"`. -/
def strictEqStr (v : JVal) (lit : String) : Bool :=
  match v with
  | .str s => s == js lit
  | _ => false

/-- The test `Array.isArray(v) && v.length === 8`, exposing the items. -/
def arrayOf8 : JVal → Option (List JVal)
  | .arr items => if items.length = 8 then some items else none
  | _ => none

/-- Whether a parsed object has an own property of the given name. -/
def hasOwnProp : List (JStr × JVal) → JStr → Bool
  | [], _ => false
  | (k, _) :: rest, key => k == key || hasOwnProp rest key

/-- The elements that `Array.prototype.join` prints as the empty string. -/
def isNullish : JVal → Bool
  | .undefined => true
  | .null => true
  | _ => false

mutual
/-- The string conversion of a value, as done by a template literal, by string
concatenation and by the `textContent` setter; `none` when it throws a `TypeError`.
A parsed object converts through `Object.prototype.toString` unless it has an own
property `toString`: that property is never callable and `valueOf` never yields a
primitive, so the conversion throws.  An array joins the conversions of its elements. -/
def jsToString : JVal → Option JStr
  | .undefined => some (js "undefined")
  | .null => some (js "null")
  | .bool b => some (if b then js "true" else js "false")
  | .num n => some (js (toString n))
  | .str s => some s
  | .arr items => (itemTexts items).map (List.intercalate (js ","))
  | .obj props =>
    if hasOwnProp props (js "toString") then none else some (js "[object Object]")
/-- The texts `Array.prototype.join` puts between the separators. -/
def itemTexts : List JVal → Option (List JStr)
  | [] => some []
  | x :: rest =>
    match jsToString x, itemTexts rest with
    | some a, some b => some ((if isNullish x then [] else a) :: b)
    | _, _ => none
end

/-! ## Client state -/

/-- A child of the chessboard element. `dataset` holds `(row, col, algebraic)` and is
present exactly on the squares that carry the click listener; the filler squares of an
invalid row have none. -/
structure Square where
  light : Bool
  highlightFrom : Bool
  highlightTo : Bool
  text : JStr
  pieceClass : Option Bool
  dataset : Option (Nat × Nat × JStr)
  deriving DecidableEq, Repr

/-- The value of `lastMoveSquares`. -/
structure LastMove where
  fromSq : Option JStr
  toSq : Option JStr
  deriving DecidableEq, Repr

/-- The value of `selectedSquare` when not null (the `div` reference is only used for
styling).  `piece` is a string: line 473 throws before the assignment otherwise. -/
structure Selected where
  row : Nat
  col : Nat
  piece : JStr
  algebraic : JStr
  deriving DecidableEq, Repr

/-- The displayed promotion chooser: the arguments of `showPromotionSelector` captured
by the listeners of its four buttons. -/
structure Promotion where
  fromAlg : JStr
  toAlg : JStr
  isWhite : Bool
  deriving DecidableEq, Repr

/-- What the browser builds from the game-end template of lines 255-261 for a given
message, as far as the script looks at it: whether `getElementById('new-game-btn')` finds
an element, and the `data-piece-type` attribute (`none` when absent) of each element of
class `promotion-piece`. -/
structure Markup where
  newGameButton : Bool
  promotionPieces : List (Option JStr)
  deriving DecidableEq, Repr

/-- An element of class `promotion-piece` inside the game-end overlay, with the squares
captured by the click listeners attached to it so far. -/
structure InjectedPiece where
  pieceType : Option JStr
  listeners : List (JStr × JStr)
  deriving DecidableEq, Repr

/-- The state of the client. -/
structure Client where
  html : JStr → Markup
  gameEndPieces : List InjectedPiece
  currentBoardState : JVal
  selectedSquare : Option Selected
  myPlayerRole : JVal
  isMyTurn : Bool
  lastMoveSquares : LastMove
  squares : List Square
  promotion : Option Promotion
  socketOpen : Bool
  sendMoveCalls : List JStr
  sent : List JStr

/-- The result of running a handler: the state left behind, and whether it threw. -/
structure Outcome where
  state : Client
  raised : Bool

/-- Sequencing of statements: nothing runs after a throw. -/
def Outcome.andThen (o : Outcome) (k : Client → Outcome) : Outcome :=
  if o.raised then o else k o.state

/-! ## Rendering -/

/-- The function `getPieceSymbol`. -/
def getPieceSymbol (pieceCode : JVal) : JStr :=
  match pieceCode with
  | .str s =>
    if s.isEmpty then []
    else
      let type := s.drop 1
      let isWhite := s.head? == some 'w'.toNat
      if type == js "P" then (if isWhite then js "♙" else js "♟")
      else if type == js "R" then (if isWhite then js "♖" else js "♜")
      else if type == js "N" then (if isWhite then js "♘" else js "♞")
      else if type == js "B" then (if isWhite then js "♗" else js "♝")
      else if type == js "Q" then (if isWhite then js "♕" else js "♛")
      else if type == js "K" then (if isWhite then js "♔" else js "♚")
      else s
  | _ => []

/-- The function `indicesToAlgebraic`. -/
def indicesToAlgebraic (row col : Nat) : JStr :=
  (('a'.toNat + col) % 65536) :: js (toString (row + 1))

/-- The test `myPlayerRole === "Player 2 (Black)"` of `drawBoard`. -/
def shouldFlipBoard (role : JVal) : Bool := strictEqStr role "Player 2 (Black)"

/-- The logical row shown at a display row (`boardRowIndex` in `drawBoard`). -/
def boardRowIndex (flip : Bool) (displayRow : Nat) : Nat :=
  if flip then displayRow else 7 - displayRow

/-- The logical column shown at a display column (`col` in `drawBoard`). -/
def boardCol (flip : Bool) (displayCol : Nat) : Nat :=
  if flip then 7 - displayCol else displayCol

/-- Squares appended to the chessboard by a piece of `drawBoard`, and whether it threw. -/
structure Drawn where
  squares : List Square
  raised : Bool
  deriving DecidableEq, Repr

/-- A `for` loop over the given indices whose body appends squares and may throw. -/
def drawLoop (body : Nat → Drawn) : List Nat → Drawn
  | [] => ⟨[], false⟩
  | i :: rest =>
    let d := body i
    if d.raised then d
    else
      let d2 := drawLoop body rest
      ⟨d.squares ++ d2.squares, d2.raised⟩

/-- The filler square of an invalid row (lines 326-329). -/
def emptySquare (flip : Bool) (displayRow col : Nat) : Square :=
  { light := ((if flip then 7 - displayRow else displayRow) + col) % 2 == 0
    highlightFrom := false
    highlightTo := false
    text := []
    pieceClass := none
    dataset := none }

/-- The body of the inner loop of `drawBoard` (lines 339-371) for a valid row. -/
def drawCell (flip : Bool) (lastMove : LastMove) (rowItems : List JVal)
    (rowIndex displayCol : Nat) : Drawn :=
  let col := boardCol flip displayCol
  let isLightSquare := (rowIndex + col) % 2 != 0
  let piece := (rowItems.get? col).getD .undefined
  let algebraic := indicesToAlgebraic rowIndex col
  let sq : Square :=
    { light := isLightSquare
      highlightFrom := lastMove.fromSq == some algebraic
      highlightTo := lastMove.toSq == some algebraic
      text := []
      pieceClass := none
      dataset := some (rowIndex, col, algebraic) }
  if truthy piece then
    match piece with
    | .str s =>
      ⟨[{ sq with text := getPieceSymbol piece,
                  pieceClass := some (s.head? == some 'w'.toNat) }], false⟩
    | _ => ⟨[], true⟩
  else ⟨[sq], false⟩

/-- The body of the outer loop of `drawBoard` (lines 321-372). -/
def drawRow (flip : Bool) (lastMove : LastMove) (rows : List JVal) (displayRow : Nat) :
    Drawn :=
  let rowIndex := boardRowIndex flip displayRow
  match arrayOf8 ((rows.get? rowIndex).getD .undefined) with
  | none => ⟨(List.range 8).map (emptySquare flip displayRow), false⟩
  | some rowItems => drawLoop (drawCell flip lastMove rowItems rowIndex) (List.range 8)

/-- The 8x8 array of nulls that `drawBoard` substitutes for invalid board data. -/
def emptyBoard : List JVal := List.replicate 8 (.arr (List.replicate 8 .null))

/-- The children of the chessboard element after `drawBoard(boardData)`, and whether the
call threw. -/
def drawSquares (role : JVal) (lastMove : LastMove) (boardData : JVal) : Drawn :=
  let rows := (arrayOf8 boardData).getD emptyBoard
  drawLoop (drawRow (shouldFlipBoard role) lastMove rows) (List.range 8)

/-- The function `drawBoard`. -/
def drawBoard (s : Client) (boardData : JVal) : Outcome :=
  let d := drawSquares s.myPlayerRole s.lastMoveSquares boardData
  ⟨{ s with squares := d.squares }, d.raised⟩

/-! ## Applying a server frame -/

/-- The test `v === n` for a number literal. -/
def strictEqNum (v : JVal) (n : Int) : Bool :=
  match v with
  | .num m => m == n
  | _ => false

/-- Whether line 68, `statusDiv.textContent = data.message`, throws: `data.message` is
truthy and cannot be converted to a string. -/
def statusTextRaises (data : JVal) : Bool :=
  truthy (getProp data "message") && (jsToString (getProp data "message")).isNone

/-- Lines 67-76: the `message` field of a frame. -/
def statusFacet (s : Client) (data : JVal) : Outcome := ⟨s, statusTextRaises data⟩

/-- Lines 78-86: the `role` field of a frame.  The template literal of line 80 throws
for a role that cannot be converted to a string. -/
def roleFacet (s : Client) (data : JVal) : Outcome :=
  let role := getProp data "role"
  if truthy role then
    let s1 := { s with myPlayerRole := role }
    if (jsToString role).isNone then ⟨s1, true⟩
    else if truthy s1.currentBoardState then drawBoard s1 s1.currentBoardState
    else ⟨s1, false⟩
  else ⟨s, false⟩

/-- Lines 88-101: the `board` field of a frame, with its `move` field.  Calling
`substring` on a value that is not a string throws. -/
def boardFacet (s : Client) (data : JVal) : Outcome :=
  let board := getProp data "board"
  if truthy board then
    let s1 := { s with currentBoardState := board }
    let move := getProp data "move"
    if truthy move && strictEqNum (jsLength move) 4 then
      match move with
      | .str m =>
        drawBoard { s1 with lastMoveSquares := ⟨some (m.take 2), some ((m.drop 2).take 2)⟩ }
          board
      | _ => ⟨s1, true⟩
    else drawBoard s1 board
  else ⟨s, false⟩

/-- Whether building the move description of lines 115-158 and 166-207 throws: it calls
`data.move.toUpperCase()` when `data.move` is truthy. -/
def moveInfoRaises (data : JVal) : Bool :=
  match getProp data "move" with
  | .str _ => false
  | move => truthy move

/-- The function `showGameEndMessage`: the overlay's content is replaced by what the
browser builds from the template with `message`, and line 266 throws when no
`new-game-btn` element is found. -/
def showGameEndMessage (s : Client) (message : JStr) : Outcome :=
  ⟨{ s with gameEndPieces := ((s.html message).promotionPieces.map fun t => ⟨t, []⟩) },
    !(s.html message).newGameButton⟩

/-- The message of line 213. -/
def disconnectedMessage : JStr := js "Opponent disconnected. Game over."

/-- The `resultMessage` of lines 219-226, `none` when a string conversion throws. -/
def gameOverMessage (data : JVal) : Option JStr :=
  if strictEqStr (getProp data "result") "checkmate" then
    (jsToString (getProp data "winner")).map fun winner =>
      js "Game over: " ++ (js "Checkmate! " ++ winner ++ js " wins!")
  else if strictEqStr (getProp data "result") "stalemate" then
    some (js "Game over: " ++ js "Stalemate! The game is a draw.")
  else if truthy (getProp data "message") then
    (jsToString (getProp data "message")).map fun text => js "Game over: " ++ text
  else some (js "Game over: " ++ js "The game has ended.")

/-- Lines 103-231: the `type` field of a frame. -/
def typeFacet (s : Client) (data : JVal) : Outcome :=
  let type := getProp data "type"
  if strictEqStr type "game_start" then
    ⟨{ s with isMyTurn := strictEqStr s.myPlayerRole "Player 1 (White)" }, false⟩
  else if strictEqStr type "opponent_move" then
    ⟨{ s with isMyTurn := true }, moveInfoRaises data⟩
  else if strictEqStr type "move_ack" then
    ⟨{ s with isMyTurn := false }, moveInfoRaises data⟩
  else if strictEqStr type "opponent_disconnected" then
    showGameEndMessage { s with isMyTurn := false } disconnectedMessage
  else if strictEqStr type "game_over" then
    match gameOverMessage data with
    | some message => showGameEndMessage { s with isMyTurn := false } message
    | none => ⟨{ s with isMyTurn := false }, true⟩
  else ⟨s, false⟩

/-- The function `handleServerMessage`.  Reading `data.message` throws when `data` is
null. -/
def handleServerMessage (s : Client) (data : JVal) : Outcome :=
  match data with
  | .null => ⟨s, true⟩
  | .undefined => ⟨s, true⟩
  | _ => (((statusFacet s data).andThen (fun s0 => roleFacet s0 data)).andThen
      (fun s1 => boardFacet s1 data)).andThen (fun s2 => typeFacet s2 data)

/-- The handler `socket.onmessage`.  `parsed` is the result of `JSON.parse(event.data)`,
`none` when it throws; the `catch` branch only writes to the log and the status line. -/
def onmessage (s : Client) (parsed : Option JVal) : Client :=
  match parsed with
  | none => s
  | some data => (handleServerMessage s data).state

/-- The function `resetGameState`. -/
def resetGameState (s : Client) : Client :=
  (drawBoard
    { s with
      currentBoardState := .null
      selectedSquare := none
      myPlayerRole := .null
      isMyTurn := false
      lastMoveSquares := ⟨none, none⟩ }
    (.arr emptyBoard)).state

/-- The handler `socket.onclose`; the socket is no longer open, and `connect` runs again
after the delay. -/
def onclose (s : Client) : Client :=
  resetGameState { s with socketOpen := false }

/-- The handler `socket.onopen`, with the socket's `readyState` becoming `OPEN`. -/
def onopen (s : Client) : Client := { s with socketOpen := true }

/-! ## User input -/

/-- The function `sendMove`. -/
def sendMove (s : Client) (moveString : JStr) : Client :=
  { s with
    sendMoveCalls := s.sendMoveCalls ++ [moveString]
    sent := if s.socketOpen then s.sent ++ [moveString] else s.sent }

/-- The function `showPromotionSelector`: the chooser is rebuilt and displayed, and
line 536 attaches a click listener capturing `fromAlg` and `toAlg` to every element of
class `promotion-piece` in the document: the four fresh buttons of the chooser, and the
elements of that class inside the game-end overlay. -/
def showPromotionSelector (s : Client) (fromAlg toAlg : JStr) (isWhite : Bool) : Client :=
  { s with
    promotion := some ⟨fromAlg, toAlg, isWhite⟩
    gameEndPieces := s.gameEndPieces.map fun p =>
      { p with listeners := p.listeners ++ [(fromAlg, toAlg)] } }

/-- The `data-piece-type` of the four promotion buttons, in document order. -/
def promotionPieceTypes : List Nat := ['q'.toNat, 'r'.toNat, 'b'.toNat, 'n'.toNat]

/-- The click listener of a promotion button (lines 537-542). -/
def onPromotionClick (s : Client) (p : Promotion) (pieceType : Nat) : Client :=
  { sendMove s (p.fromAlg ++ p.toAlg ++ [pieceType]) with promotion := none }

/-- A click on an element of class `promotion-piece` inside the game-end overlay: each
listener attached to it runs lines 538-541, with `getAttribute('data-piece-type')` being
`null`, printed as `"null"`, when the attribute is absent. -/
def onInjectedClick (s : Client) (p : InjectedPiece) : Client :=
  p.listeners.foldl
    (fun st l =>
      { sendMove st (l.1 ++ l.2 ++ p.pieceType.getD (js "null")) with promotion := none })
    s

/-- The test `piece.endsWith("P")`. -/
def endsWithP (piece : JStr) : Bool := piece.getLast? == some 'P'.toNat

/-- The test of lines 453-455. -/
def isPawnPromotion (role : JVal) (piece toAlg : JStr) : Bool :=
  endsWithP piece &&
    ((strictEqStr role "Player 1 (White)" && toAlg.get? 1 == some '8'.toNat) ||
     (strictEqStr role "Player 2 (Black)" && toAlg.get? 1 == some '1'.toNat))

/-- The piece read by line 441: `currentBoardState[row][col]` when `currentBoardState[row]`
is truthy, `null` otherwise. -/
def pieceAt (board : JVal) (row col : Nat) : JVal :=
  if truthy (getIndex board row) then getIndex (getIndex board row) col else .null

/-- The function `onSquareClick`, for a click on a square whose `dataset` holds `row`,
`col` and `algebraic`. -/
def onSquareClick (s : Client) (row col : Nat) (algebraic : JStr) : Outcome :=
  if !s.isMyTurn then ⟨s, false⟩
  else if !truthy s.currentBoardState then ⟨s, false⟩
  else
    let piece := pieceAt s.currentBoardState row col
    match s.selectedSquare with
    | some sel =>
      if sel.row = row ∧ sel.col = col then ⟨{ s with selectedSquare := none }, false⟩
      else
        let fromAlg := sel.algebraic
        let toAlg := algebraic
        if isPawnPromotion s.myPlayerRole sel.piece toAlg then
          ⟨{ showPromotionSelector s fromAlg toAlg
                (strictEqStr s.myPlayerRole "Player 1 (White)") with
              selectedSquare := none }, false⟩
        else ⟨{ sendMove s (fromAlg ++ toAlg) with selectedSquare := none }, false⟩
    | none =>
      if !truthy piece then ⟨s, false⟩
      else
        match piece with
        | .str p =>
          let isWhitePiece := p.head? == some 'w'.toNat
          if (strictEqStr s.myPlayerRole "Player 1 (White)" && !isWhitePiece) ||
              (strictEqStr s.myPlayerRole "Player 2 (Black)" && isWhitePiece) then
            ⟨s, false⟩
          else ⟨{ s with selectedSquare := some ⟨row, col, p, algebraic⟩ }, false⟩
        | _ => ⟨s, true⟩

/-! ## The event loop -/

/-- The events the client reacts to. A click is addressed to the `i`-th child of the
chessboard, to the `i`-th button of the displayed promotion chooser, or to the `i`-th
element of class `promotion-piece` inside the game-end overlay. -/
inductive Event where
  | opened : Event
  | message (parsed : Option JVal) : Event
  | closed : Event
  | squareClick (i : Nat) : Event
  | promotionClick (i : Nat) : Event
  | injectedClick (i : Nat) : Event

/-- A message whose text is markup: a button of class `promotion-piece` with the
`data-piece-type` attribute `xyz`. -/
def injectedButton : JStr := js "<button class=promotion-piece data-piece-type=xyz>x</button>"

/-- The browser's HTML parser on the game-end messages that occur in the traces of this
file: for the message that carries `injectedButton` the template yields the
`new-game-btn` button and that one element of class `promotion-piece`; for the
plain-text messages it yields the `new-game-btn` button only.  Statements about an
arbitrary client state hold for every parser. -/
def browserHtml (message : JStr) : Markup :=
  if message = js "Game over: " ++ injectedButton then ⟨true, [some (js "xyz")]⟩
  else ⟨true, []⟩

/-- The state after the script's top-level statements: the variables of lines 11-15 and
the empty board drawn by line 18, in a browser whose parser is `browserHtml`. -/
def initial : Client :=
  (drawBoard
    { html := browserHtml
      gameEndPieces := []
      currentBoardState := .null
      selectedSquare := none
      myPlayerRole := .null
      isMyTurn := false
      lastMoveSquares := ⟨none, none⟩
      squares := []
      promotion := none
      socketOpen := false
      sendMoveCalls := []
      sent := [] }
    (.arr emptyBoard)).state

/-- One event, run to completion. An exception escaping a click listener is dropped by
the host. -/
def step (s : Client) : Event → Client
  | .opened => onopen s
  | .message parsed => onmessage s parsed
  | .closed => onclose s
  | .squareClick i =>
    match s.squares.get? i with
    | some sq =>
      match sq.dataset with
      | some (row, col, algebraic) => (onSquareClick s row col algebraic).state
      | none => s
    | none => s
  | .promotionClick i =>
    match s.promotion, promotionPieceTypes.get? i with
    | some p, some pieceType => onPromotionClick s p pieceType
    | _, _ => s
  | .injectedClick i =>
    match s.gameEndPieces.get? i with
    | some p => onInjectedClick s p
    | none => s

/-- The state after a sequence of events, starting from `s`. -/
def run (s : Client) (events : List Event) : Client := events.foldl step s

/-! ## Wire format of moves -/

/-- A file letter `a`-`h`. -/
def IsFile (u : Nat) : Prop := 'a'.toNat ≤ u ∧ u ≤ 'h'.toNat

/-- A rank digit `1`-`8`. -/
def IsRank (u : Nat) : Prop := '1'.toNat ≤ u ∧ u ≤ '8'.toNat

/-- An algebraic square label: a file letter followed by a rank digit. -/
def IsSquareLabel (a : JStr) : Prop := ∃ f r, a = [f, r] ∧ IsFile f ∧ IsRank r

/-- One of the promotion letters `q`, `r`, `b`, `n`. -/
def IsPromotionLetter (k : Nat) : Prop :=
  k = 'q'.toNat ∨ k = 'r'.toNat ∨ k = 'b'.toNat ∨ k = 'n'.toNat

/-- A wire move string: two square labels, optionally followed by a promotion letter. -/
def WellFormedMove (m : JStr) : Prop :=
  ∃ a b, IsSquareLabel a ∧ IsSquareLabel b ∧
    (m = a ++ b ∨ ∃ k, IsPromotionLetter k ∧ m = a ++ b ++ [k])

/-! ## The Game View Model -/

/-- The Game View Model: board, seat, turn state and last-move squares. -/
structure ViewModel where
  board : JVal
  seat : JVal
  turn : Bool
  lastMove : LastMove

/-- The Game View Model held by a client state. -/
def Client.viewModel (s : Client) : ViewModel :=
  ⟨s.currentBoardState, s.myPlayerRole, s.isMyTurn, s.lastMoveSquares⟩

/-- The test `data.type === kind`. -/
def hasKind (data : JVal) (kind : String) : Bool := strictEqStr (getProp data "type") kind

/-- Whether `drawBoard(boardData)` throws under the given seat and last move. -/
def drawRaises (role : JVal) (lastMove : LastMove) (boardData : JVal) : Bool :=
  (drawSquares role lastMove boardData).raised

/-- The value of `lastMoveSquares` after lines 88-98: the two halves of `data.move` when
the frame carries a board and `data.move` is a string of 4 code units, the old value
otherwise. -/
def lastMoveAfter (old : LastMove) (data : JVal) : LastMove :=
  if truthy (getProp data "board") then
    match getProp data "move" with
    | .str m => if m.length = 4 then ⟨some (m.take 2), some ((m.drop 2).take 2)⟩ else old
    | _ => old
  else old

/-- What `roleFacet` does to the Game View Model, and whether it throws. -/
def roleStep (v : ViewModel) (data : JVal) : ViewModel × Bool :=
  if truthy (getProp data "role") then
    ({ v with seat := getProp data "role" },
      (jsToString (getProp data "role")).isNone ||
        (truthy v.board && drawRaises (getProp data "role") v.lastMove v.board))
  else (v, false)

/-- What `boardFacet` does to the Game View Model, and whether it throws. -/
def boardStep (v : ViewModel) (data : JVal) : ViewModel × Bool :=
  if truthy (getProp data "board") then
    if truthy (getProp data "move") && strictEqNum (jsLength (getProp data "move")) 4 then
      match getProp data "move" with
      | .str m =>
        ({ v with
            board := getProp data "board"
            lastMove := ⟨some (m.take 2), some ((m.drop 2).take 2)⟩ },
          drawRaises v.seat ⟨some (m.take 2), some ((m.drop 2).take 2)⟩
            (getProp data "board"))
      | _ => ({ v with board := getProp data "board" }, true)
    else
      ({ v with board := getProp data "board" },
        drawRaises v.seat v.lastMove (getProp data "board"))
  else (v, false)

/-- The turn state after `typeFacet`, from the seat and the turn state before it. -/
def turnAfter (seat : JVal) (turn : Bool) (data : JVal) : Bool :=
  if hasKind data "game_start" then strictEqStr seat "Player 1 (White)"
  else if hasKind data "opponent_move" then true
  else if hasKind data "move_ack" then false
  else if hasKind data "opponent_disconnected" then false
  else if hasKind data "game_over" then false
  else turn

/-- Whether `typeFacet` throws, given the HTML parser of the client. -/
def typeRaises (html : JStr → Markup) (data : JVal) : Bool :=
  if hasKind data "game_start" then false
  else if hasKind data "opponent_move" then moveInfoRaises data
  else if hasKind data "move_ack" then moveInfoRaises data
  else if hasKind data "opponent_disconnected" then !(html disconnectedMessage).newGameButton
  else if hasKind data "game_over" then
    match gameOverMessage data with
    | some message => !(html message).newGameButton
    | none => true
  else false

/-- What `typeFacet` does to the Game View Model, and whether it throws. -/
def typeStep (html : JStr → Markup) (v : ViewModel) (data : JVal) : ViewModel × Bool :=
  ({ v with turn := turnAfter v.seat v.turn data }, typeRaises html data)

/-- Sequencing on view models: nothing runs after a throw. -/
def thenStep (r : ViewModel × Bool) (k : ViewModel → ViewModel × Bool) : ViewModel × Bool :=
  if r.2 then r else k r.1

/-- What `handleServerMessage` does to the Game View Model of a frame that is not null,
and whether it throws. -/
def frameStep (html : JStr → Markup) (v : ViewModel) (data : JVal) : ViewModel × Bool :=
  if statusTextRaises data then (v, true)
  else
    thenStep (thenStep (roleStep v data) fun v1 => boardStep v1 data)
      fun v2 => typeStep html v2 data

/-! ## Sample frames and states -/

/-- The seat label of White. -/
def whiteRole : JVal := .str (js "Player 1 (White)")

/-- The seat label of Black. -/
def blackRole : JVal := .str (js "Player 2 (Black)")

/-- A board with white pawns on the second rank and a white pawn on a7. -/
def sampleBoard : JVal :=
  .arr ((List.range 8).map fun row =>
    .arr ((List.range 8).map fun col =>
      if row = 1 ∨ (row = 6 ∧ col = 0) then .str (js "wP") else .null))

/-- The frame `{type: "game_start", role: "Player 1 (White)", board: sampleBoard}`. -/
def gameStartWhite : JVal :=
  .obj [(js "type", .str (js "game_start")), (js "role", whiteRole),
    (js "board", sampleBoard)]

/-- The frame `{type: "opponent_disconnected"}`. -/
def opponentDisconnected : JVal := .obj [(js "type", .str (js "opponent_disconnected"))]

/-- White to move on `sampleBoard`, connection open.  Under White's orientation the
square with logical `(row, col)` is child `(7 - row) * 8 + col` of the chessboard. -/
def whiteToMove : Client := run initial [.opened, .message (some gameStartWhite)]

/-- White has clicked the pawn on e2, logical `(1, 4)`. -/
def e2Selected : Client := step whiteToMove (.squareClick 52)

/-- White has clicked the pawn on a7, logical `(6, 0)`, and then a8, logical `(7, 0)`:
the promotion chooser is displayed. -/
def promotionPending : Client := run whiteToMove [.squareClick 8, .squareClick 0]

/-- An 8x8 board whose cell a1 holds the number `1` instead of a piece token. -/
def badCellBoard : JVal :=
  .arr ((List.range 8).map fun row =>
    .arr ((List.range 8).map fun col => if row = 0 ∧ col = 0 then .num 1 else .null))

/-- The frame `{type: "opponent_move", board: badCellBoard}`. -/
def opponentMoveBadCell : JVal :=
  .obj [(js "type", .str (js "opponent_move")), (js "board", badCellBoard)]

/-- A board payload with only seven rows. -/
def sevenRowBoard : JVal := .arr (List.replicate 7 (.arr (List.replicate 8 .null)))

/-- The frame `{board: sevenRowBoard}`. -/
def sevenRowFrame : JVal := .obj [(js "board", sevenRowBoard)]

/-- The frame `{board: badCellBoard}`. -/
def badCellFrame : JVal := .obj [(js "board", badCellBoard)]

/-- The frame `{role: "Player 2 (Black)"}`. -/
def blackRoleFrame : JVal := .obj [(js "role", blackRole)]

/-- A board payload of eight rows whose first row (rank 1) is an empty array. -/
def shortRowBoard : JVal :=
  .arr (.arr [] :: List.replicate 7 (.arr (List.replicate 8 .null)))

/-- The frame `{role: "Player 2 (Black)", board: shortRowBoard}`. -/
def blackShortRowFrame : JVal :=
  .obj [(js "role", blackRole), (js "board", shortRowBoard)]

/-- The frame `{role: "Player 1 (White)", board: shortRowBoard}`. -/
def whiteShortRowFrame : JVal :=
  .obj [(js "role", whiteRole), (js "board", shortRowBoard)]

/-- The frame `{role: "Player 2 (Black)", board: sampleBoard}`, all of whose rows are
valid. -/
def blackSampleFrame : JVal :=
  .obj [(js "role", blackRole), (js "board", sampleBoard)]

/-- The shade `drawBoard` gives a cell of a valid row: light when logical row plus
logical column is odd (line 346). -/
def isLightSquare (row col : Nat) : Bool := (row + col) % 2 != 0

/-- A value that cannot be converted to a string: the object `{"toString": 1}`. -/
def unprintable : JVal := .obj [(js "toString", .num 1)]

/-- The frame `{role: {"toString": 1}}`. -/
def unprintableRoleFrame : JVal := .obj [(js "role", unprintable)]

/-- The frame `{message: {"toString": 1}, role: "Player 2 (Black)"}`. -/
def unprintableStatusFrame : JVal :=
  .obj [(js "message", unprintable), (js "role", blackRole)]

/-- The frame `{type: "game_over", result: "checkmate", winner: {"toString": 1},
role: "Player 2 (Black)", board: sampleBoard, move: "e2e4"}`. -/
def unprintableWinnerFrame : JVal :=
  .obj [(js "type", .str (js "game_over")), (js "result", .str (js "checkmate")),
    (js "winner", unprintable), (js "role", blackRole), (js "board", sampleBoard),
    (js "move", .str (js "e2e4"))]

/-- The frame `{role: "Player 2 (Black)", board: badCellBoard, move: "e2e4"}`. -/
def badCellMoveFrame : JVal :=
  .obj [(js "role", blackRole), (js "board", badCellBoard), (js "move", .str (js "e2e4"))]

/-- The frame `{type: "game_over", message: injectedButton}`. -/
def injectingFrame : JVal :=
  .obj [(js "type", .str (js "game_over")), (js "message", .str injectedButton)]

/-! # Theorems -/

theorem boardRowIndex_lt (flip : Bool) {i : Nat} (h : i < 8) : boardRowIndex flip i < 8 := by
  cases flip <;> simp [boardRowIndex] <;> omega

theorem boardCol_lt (flip : Bool) {i : Nat} (h : i < 8) : boardCol flip i < 8 := by
  cases flip <;> simp [boardCol] <;> omega

theorem wellFormedMove_length {m : JStr} (h : WellFormedMove m) :
    m.length = 4 ∨ m.length = 5 := by
  obtain ⟨a, b, ⟨f1, r1, rfl, _⟩, ⟨f2, r2, rfl, _⟩, h | ⟨k, _, h⟩⟩ := h
  · left; subst h; rfl
  · right; subst h; rfl

/-! ## C1: the turn gate -/

/-- C1 (evaluated at the failing input): with the promotion chooser displayed for a7-a8
and nothing sent yet, a transport close or an `opponent_disconnected` frame sets the
turn state to false and leaves the chooser displayed; the click on the rook button that
follows passes `"a7a8r"` to `sendMove` although the turn state is false, and with the
connection still open the string goes out on the socket. -/
theorem promotion_choice_sent_out_of_turn :
    promotionPending.promotion = some ⟨js "a7", js "a8", true⟩ ∧
    promotionPending.sendMoveCalls = [] ∧
    (step promotionPending .closed).isMyTurn = false ∧
    (run promotionPending [.closed, .promotionClick 1]).sendMoveCalls = [js "a7a8r"] ∧
    (step promotionPending (.message (some opponentDisconnected))).isMyTurn = false ∧
    (run promotionPending [.message (some opponentDisconnected), .promotionClick 1]).sent =
      [js "a7a8r"] := by
  decide

/-! ## C3: destination clicks -/

theorem strictEqStr_eq_true {v : JVal} {lit : String} (h : strictEqStr v lit = true) :
    v = .str (js lit) := by
  cases v <;> simp [strictEqStr] at h
  rw [h]

theorem strictEqStr_not_black_of_white {v : JVal}
    (h : strictEqStr v "Player 1 (White)" = true) :
    strictEqStr v "Player 2 (Black)" = false := by
  rw [strictEqStr_eq_true h]; decide

theorem strictEqStr_not_white_of_black {v : JVal}
    (h : strictEqStr v "Player 2 (Black)" = true) :
    strictEqStr v "Player 1 (White)" = false := by
  rw [strictEqStr_eq_true h]; decide

theorem rank8_iff (row col : Nat) (hr : row < 8) :
    ((indicesToAlgebraic row col).get? 1 == some '8'.toNat) = decide (row = 7) := by
  interval_cases row <;> rfl

theorem rank1_iff (row col : Nat) (hr : row < 8) :
    ((indicesToAlgebraic row col).get? 1 == some '1'.toNat) = decide (row = 0) := by
  interval_cases row <;> rfl

/-- C3: for seat White or Black, with the turn state true and a board set, a click in
state `Selected(origin, piece)` on a rendered square other than the origin opens the
promotion chooser for (origin, destination) and sends nothing when the piece token ends
in `P` and the destination is on the far rank of the seat (row 7, rank 8, for White;
row 0, rank 1, for Black); in every other case it passes exactly one string,
origin ++ destination, to `sendMove` and leaves the chooser as it was.  In both cases the
handler returns normally and the selection is empty afterwards. -/
theorem destination_click_routes (s : Client) (sel : Selected) (row col : Nat)
    (hseat : strictEqStr s.myPlayerRole "Player 1 (White)" = true ∨
      strictEqStr s.myPlayerRole "Player 2 (Black)" = true)
    (hturn : s.isMyTurn = true) (hboard : truthy s.currentBoardState = true)
    (hsel : s.selectedSquare = some sel) (hrow : row < 8)
    (hother : ¬(sel.row = row ∧ sel.col = col)) :
    (onSquareClick s row col (indicesToAlgebraic row col)).raised = false ∧
    (onSquareClick s row col (indicesToAlgebraic row col)).state.selectedSquare = none ∧
    ((endsWithP sel.piece = true ∧
        row = (if strictEqStr s.myPlayerRole "Player 1 (White)" = true then 7 else 0)) →
      (onSquareClick s row col (indicesToAlgebraic row col)).state.promotion =
          some ⟨sel.algebraic, indicesToAlgebraic row col,
            strictEqStr s.myPlayerRole "Player 1 (White)"⟩ ∧
        (onSquareClick s row col (indicesToAlgebraic row col)).state.sendMoveCalls =
          s.sendMoveCalls) ∧
    (¬(endsWithP sel.piece = true ∧
        row = (if strictEqStr s.myPlayerRole "Player 1 (White)" = true then 7 else 0)) →
      (onSquareClick s row col (indicesToAlgebraic row col)).state.sendMoveCalls =
          s.sendMoveCalls ++ [sel.algebraic ++ indicesToAlgebraic row col] ∧
        (onSquareClick s row col (indicesToAlgebraic row col)).state.promotion =
          s.promotion) := by
  have hpromo : isPawnPromotion s.myPlayerRole sel.piece (indicesToAlgebraic row col) =
      decide (endsWithP sel.piece = true ∧
        row = (if strictEqStr s.myPlayerRole "Player 1 (White)" = true then 7 else 0)) := by
    unfold isPawnPromotion
    rw [rank8_iff row col hrow, rank1_iff row col hrow]
    rcases hseat with hw | hb
    · simp [hw, strictEqStr_not_black_of_white hw]
    · simp [hb, strictEqStr_not_white_of_black hb]
  unfold onSquareClick
  simp only [hturn, hboard, hsel, hother, hpromo, Bool.not_true, Bool.false_eq_true, if_false]
  by_cases hp : endsWithP sel.piece = true ∧
      row = (if strictEqStr s.myPlayerRole "Player 1 (White)" = true then 7 else 0)
  · simp [hp, showPromotionSelector]
  · simp [hp, sendMove]

/-- Witness for C3, with the two scenarios of the claim: White clicks e2, logical
`(1, 4)`, then e4, logical `(3, 4)`, and `"e2e4"` is sent; White clicks the pawn on a7,
logical `(6, 0)`, then a8, logical `(7, 0)`, and nothing is sent until the rook is
chosen, which sends `"a7a8r"`. -/
theorem destination_click_routes_witness :
    e2Selected.selectedSquare = some ⟨1, 4, js "wP", js "e2"⟩ ∧
    (onSquareClick e2Selected 3 4 (indicesToAlgebraic 3 4)).raised = false ∧
    (onSquareClick e2Selected 3 4 (indicesToAlgebraic 3 4)).state.selectedSquare = none ∧
    (run whiteToMove [.squareClick 52, .squareClick 36]).sendMoveCalls = [js "e2e4"] ∧
    (run whiteToMove [.squareClick 8, .squareClick 0]).sendMoveCalls = [] ∧
    (run whiteToMove [.squareClick 8, .squareClick 0]).promotion =
      some ⟨js "a7", js "a8", true⟩ ∧
    (run whiteToMove [.squareClick 8, .squareClick 0, .promotionClick 1]).sendMoveCalls =
      [js "a7a8r"] :=
  have h := destination_click_routes e2Selected ⟨1, 4, js "wP", js "e2"⟩ 3 4
    (Or.inl (by decide)) (by decide) (by decide) (by decide) (by decide) (by decide)
  ⟨by decide, h.1, h.2.1, by decide, by decide, by decide, by decide⟩

/-! ## C6: the close handler -/

/-- C6 (evaluated at the failing input): the close handler clears the seat, the board,
the turn state, the last move and the selected square of every state, but a displayed
promotion chooser survives it: closing while the chooser for a7-a8 is pending leaves it
displayed, and after the reconnection a click on its queen button sends `"a7a8q"`, a
move built from the state before the disconnect. -/
theorem close_keeps_pending_promotion :
    (∀ s : Client, (onclose s).myPlayerRole = .null ∧ (onclose s).currentBoardState = .null ∧
      (onclose s).isMyTurn = false ∧ (onclose s).lastMoveSquares = ⟨none, none⟩ ∧
      (onclose s).selectedSquare = none) ∧
    (onclose promotionPending).promotion = some ⟨js "a7", js "a8", true⟩ ∧
    (run promotionPending [.closed, .opened, .promotionClick 0]).sent = [js "a7a8q"] :=
  ⟨fun _ => ⟨rfl, rfl, rfl, rfl, rfl⟩, by decide, by decide⟩

/-! ## C5: the orientation mapping -/

/-- C5: for every seat value (White, Black or unassigned), the display-to-logical
mapping of `drawBoard` sends 0..7 x 0..7 into 0..7 x 0..7, every logical square is shown
at exactly one display position, and the mapping is its own inverse, so that going from
logical to display and back returns the original row and column. -/
theorem orientation_mapping_bijective (role : JVal) :
    (∀ displayRow displayCol : Fin 8,
      boardRowIndex (shouldFlipBoard role) displayRow < 8 ∧
      boardCol (shouldFlipBoard role) displayCol < 8) ∧
    (∀ row col : Fin 8, ∃! d : Fin 8 × Fin 8,
      boardRowIndex (shouldFlipBoard role) d.1 = row ∧
      boardCol (shouldFlipBoard role) d.2 = col) ∧
    (∀ row col : Fin 8,
      boardRowIndex (shouldFlipBoard role) (boardRowIndex (shouldFlipBoard role) row) = row ∧
      boardCol (shouldFlipBoard role) (boardCol (shouldFlipBoard role) col) = col) := by
  generalize shouldFlipBoard role = flip
  refine ⟨?_, ?_, ?_⟩
  · intro dr dc
    exact ⟨boardRowIndex_lt flip dr.isLt, boardCol_lt flip dc.isLt⟩
  · intro row col
    refine ⟨(⟨boardRowIndex flip row, boardRowIndex_lt flip row.isLt⟩,
      ⟨boardCol flip col, boardCol_lt flip col.isLt⟩), ?_, ?_⟩
    · cases flip <;> simp [boardRowIndex, boardCol] <;> omega
    · rintro ⟨⟨a, ha⟩, ⟨b, hb⟩⟩ ⟨h1, h2⟩
      obtain ⟨r, hr⟩ := row
      obtain ⟨c, hc⟩ := col
      have h1 : boardRowIndex flip a = r := h1
      have h2 : boardCol flip b = c := h2
      refine Prod.ext (Fin.ext ?_) (Fin.ext ?_)
      · show a = boardRowIndex flip r
        cases flip <;> simp only [boardRowIndex] at h1 ⊢ <;> simp at h1 ⊢ <;> omega
      · show b = boardCol flip c
        cases flip <;> simp only [boardCol] at h2 ⊢ <;> simp at h2 ⊢ <;> omega
  · intro row col
    cases flip <;> simp [boardRowIndex, boardCol] <;> omega

/-! ## C11: square shading -/

/-- C11 (evaluated at the failing input): the cells of a valid row are shaded by the rule
"light when logical row plus logical column is odd" for every seat, but the filler cells
of an invalid row are shaded from `(flipped ? 7 - displayRow : displayRow) + displayCol`,
which agrees with that rule under White's orientation and is its exact opposite under
Black's.  With the first row of the board invalid, Black's top
left cell shows logical `(0, 7)` and is drawn dark although `0 + 7` is odd; the same
logical square is drawn light under White, and light under Black when the row is
valid. -/
theorem filler_shade_inverted_for_black :
    (∀ (flip : Bool) (lastMove : LastMove) (rowItems : List JVal) (rowIndex displayCol : Nat),
      (drawCell flip lastMove rowItems rowIndex displayCol).squares.map
          (fun sq => sq.light) =
        if (drawCell flip lastMove rowItems rowIndex displayCol).raised then []
        else [isLightSquare rowIndex (boardCol flip displayCol)]) ∧
    (∀ displayRow displayCol : Fin 8,
      (emptySquare false displayRow displayCol).light =
        isLightSquare (boardRowIndex false displayRow) (boardCol false displayCol)) ∧
    (∀ displayRow displayCol : Fin 8,
      (emptySquare true displayRow displayCol).light =
        !isLightSquare (boardRowIndex true displayRow) (boardCol true displayCol)) ∧
    boardRowIndex (shouldFlipBoard blackRole) 0 = 0 ∧
    boardCol (shouldFlipBoard blackRole) 0 = 7 ∧
    isLightSquare 0 7 = true ∧
    ((step initial (.message (some blackShortRowFrame))).squares.get? 0).map
      (fun sq => (sq.light, sq.dataset)) = some (false, none) ∧
    boardRowIndex (shouldFlipBoard whiteRole) 7 = 0 ∧
    boardCol (shouldFlipBoard whiteRole) 7 = 7 ∧
    ((step initial (.message (some whiteShortRowFrame))).squares.get? 63).map
      (fun sq => (sq.light, sq.dataset)) = some (true, none) ∧
    ((step initial (.message (some blackSampleFrame))).squares.get? 0).map
      (fun sq => (sq.light, sq.dataset)) = some (true, some (0, 7, js "h1")) := by
  refine ⟨?_, by decide, by decide, ?_, ?_, ?_, ?_, ?_, ?_, ?_, ?_⟩
  · intro flip lastMove rowItems rowIndex displayCol
    unfold drawCell
    simp only
    split
    · split <;> rfl
    · rfl
  all_goals decide

/-! ## The effect of a frame on the Game View Model -/

theorem roleFacet_step (s : Client) (data : JVal) :
    (roleFacet s data).state.viewModel = (roleStep s.viewModel data).1 ∧
    (roleFacet s data).raised = (roleStep s.viewModel data).2 ∧
    (roleFacet s data).state.html = s.html := by
  unfold roleFacet roleStep
  simp only
  by_cases hR : truthy (getProp data "role") = true
  · by_cases hT : (jsToString (getProp data "role")).isNone = true
    · simp [hR, hT, Client.viewModel]
    · by_cases hB : truthy s.currentBoardState = true
      · simp [hR, hT, hB, Client.viewModel, drawBoard, drawRaises]
      · simp [hR, hT, hB, Client.viewModel]
  · simp [hR]

theorem boardFacet_step (s : Client) (data : JVal) :
    (boardFacet s data).state.viewModel = (boardStep s.viewModel data).1 ∧
    (boardFacet s data).raised = (boardStep s.viewModel data).2 ∧
    (boardFacet s data).state.html = s.html := by
  unfold boardFacet boardStep
  simp only
  by_cases hB : truthy (getProp data "board") = true
  · by_cases hM : (truthy (getProp data "move") &&
        strictEqNum (jsLength (getProp data "move")) 4) = true
    · simp only [hB, hM, if_true]
      split <;> simp [Client.viewModel, drawBoard, drawRaises]
    · simp [hB, hM, Client.viewModel, drawBoard, drawRaises]
  · simp [hB]

theorem typeFacet_step (s : Client) (data : JVal) :
    (typeFacet s data).state.viewModel = (typeStep s.html s.viewModel data).1 ∧
    (typeFacet s data).raised = (typeStep s.html s.viewModel data).2 ∧
    (typeFacet s data).state.html = s.html := by
  unfold typeFacet typeStep turnAfter typeRaises hasKind showGameEndMessage
  simp only
  repeat' split
  all_goals exact ⟨rfl, rfl, rfl⟩

theorem andThen_step {o : Outcome} {k : Client → Outcome} {r : ViewModel × Bool}
    {j : ViewModel → ViewModel × Bool} (h : JStr → Markup)
    (ho : o.state.viewModel = r.1 ∧ o.raised = r.2 ∧ o.state.html = h)
    (hk : ∀ s, s.html = h → (k s).state.viewModel = (j s.viewModel).1 ∧
      (k s).raised = (j s.viewModel).2 ∧ (k s).state.html = h) :
    (o.andThen k).state.viewModel = (thenStep r j).1 ∧
      (o.andThen k).raised = (thenStep r j).2 ∧ (o.andThen k).state.html = h := by
  unfold Outcome.andThen thenStep
  rw [ho.2.1]
  split
  · exact ho
  · rw [← ho.1]; exact hk _ ho.2.2

/-- The value of `data.message` can be read: `data` is neither null nor undefined. -/
theorem handleServerMessage_step (s : Client) (data : JVal)
    (h : data ≠ .null ∧ data ≠ .undefined) :
    (handleServerMessage s data).state.viewModel = (frameStep s.html s.viewModel data).1 ∧
    (handleServerMessage s data).raised = (frameStep s.html s.viewModel data).2 ∧
    (handleServerMessage s data).state.html = s.html := by
  have key := andThen_step (k := fun s2 => typeFacet s2 data)
    (j := fun v2 => typeStep s.html v2 data) s.html
    (andThen_step (k := fun s1 => boardFacet s1 data) (j := fun v1 => boardStep v1 data)
      s.html ⟨(roleFacet_step s data).1, (roleFacet_step s data).2.1,
        (roleFacet_step s data).2.2⟩
      fun s1 h1 => ⟨(boardFacet_step s1 data).1, (boardFacet_step s1 data).2.1,
        (boardFacet_step s1 data).2.2.trans h1⟩)
    fun s2 h2 => by
      have := typeFacet_step s2 data
      rw [h2] at this
      exact this
  have hchain : handleServerMessage s data =
      if statusTextRaises data = true then ⟨s, true⟩
      else (((roleFacet s data).andThen fun s1 => boardFacet s1 data).andThen
        fun s2 => typeFacet s2 data) := by
    cases data
    case null => exact absurd rfl h.1
    case undefined => exact absurd rfl h.2
    all_goals
      simp only [handleServerMessage, statusFacet, Outcome.andThen]
      split <;> simp_all
  rw [hchain]
  unfold frameStep
  by_cases hS : statusTextRaises data = true
  · rw [if_pos hS, if_pos hS]
    exact ⟨rfl, rfl, rfl⟩
  · rw [if_neg hS, if_neg hS]
    exact key

theorem handleServerMessage_html (s : Client) (data : JVal) :
    (handleServerMessage s data).state.html = s.html := by
  by_cases h : data ≠ .null ∧ data ≠ .undefined
  · exact (handleServerMessage_step s data h).2.2
  · have h' : data = .null ∨ data = .undefined := by
      by_contra hc
      exact h ⟨fun e => hc (Or.inl e), fun e => hc (Or.inr e)⟩
    rcases h' with rfl | rfl <;> rfl

/-! ## C10: applying a frame twice -/

theorem turnAfter_idem (seat : JVal) (turn : Bool) (data : JVal) :
    turnAfter seat (turnAfter seat turn data) data = turnAfter seat turn data := by
  unfold turnAfter
  repeat' split
  all_goals rfl

theorem roleStep_fst (v : ViewModel) (data : JVal) :
    (roleStep v data).1 =
      { v with seat := if truthy (getProp data "role") then getProp data "role" else v.seat } := by
  unfold roleStep
  split <;> rfl

theorem roleStep_snd (v : ViewModel) (data : JVal) :
    (roleStep v data).2 =
      (truthy (getProp data "role") &&
        ((jsToString (getProp data "role")).isNone ||
          (truthy v.board && drawRaises (getProp data "role") v.lastMove v.board))) := by
  unfold roleStep
  split
  · rename_i h; simp [h]
  · rename_i h; simp [h]

theorem boardStep_idem (v : ViewModel) (data : JVal) :
    boardStep (boardStep v data).1 data = boardStep v data := by
  unfold boardStep
  cases getProp data "move" <;> simp only [] <;> split_ifs <;> rfl

theorem boardStep_turn (v : ViewModel) (data : JVal) (t : Bool) :
    boardStep { v with turn := t } data =
      ({ (boardStep v data).1 with turn := t }, (boardStep v data).2) := by
  unfold boardStep
  cases getProp data "move" <;> simp only [] <;> split_ifs <;> rfl

theorem boardStep_seat (v : ViewModel) (data : JVal) :
    (boardStep v data).1.seat = v.seat := by
  unfold boardStep
  cases getProp data "move" <;> simp only [] <;> split_ifs <;> rfl

theorem boardStep_of_no_board (v : ViewModel) (data : JVal)
    (h : truthy (getProp data "board") = false) : boardStep v data = (v, false) := by
  unfold boardStep
  simp [h]

theorem boardStep_drawn (v : ViewModel) (data : JVal)
    (hB : truthy (getProp data "board") = true) (h : (boardStep v data).2 = false) :
    (boardStep v data).1.board = getProp data "board" ∧
      drawRaises v.seat (boardStep v data).1.lastMove (getProp data "board") = false := by
  unfold boardStep at h ⊢
  simp only [hB, if_true] at h ⊢
  cases hm : getProp data "move" <;> simp only [hm] at h ⊢ <;> split_ifs at h ⊢ <;>
    exact ⟨rfl, h⟩

theorem roleStep_roleStep (v : ViewModel) (data : JVal) :
    roleStep (roleStep v data).1 data = roleStep v data := by
  unfold roleStep
  split <;> simp [*]

theorem roleStep_fst_of_seat (w : ViewModel) (data : JVal)
    (hseat : truthy (getProp data "role") = true → w.seat = getProp data "role") :
    (roleStep w data).1 = w := by
  rw [roleStep_fst]
  split
  · rename_i hR
    obtain ⟨b, r, t, l⟩ := w
    have : r = getProp data "role" := hseat hR
    rw [← this]
  · rfl

theorem roleStep_seat (v : ViewModel) (data : JVal)
    (hR : truthy (getProp data "role") = true) :
    (roleStep v data).1.seat = getProp data "role" := by
  rw [roleStep_fst]; simp [hR]

theorem roleStep_after_board (v : ViewModel) (data : JVal)
    (h1 : (roleStep v data).2 = false)
    (h2 : (boardStep (roleStep v data).1 data).2 = false) (t : Bool) :
    roleStep { (boardStep (roleStep v data).1 data).1 with turn := t } data =
      ({ (boardStep (roleStep v data).1 data).1 with turn := t }, false) := by
  have hseat : truthy (getProp data "role") = true →
      (boardStep (roleStep v data).1 data).1.seat = getProp data "role" := fun hR => by
    rw [boardStep_seat, roleStep_seat v data hR]
  refine Prod.ext (roleStep_fst_of_seat _ data hseat) ?_
  rw [roleStep_snd]
  rw [roleStep_snd] at h1
  by_cases hR : truthy (getProp data "role") = true
  · simp only [hR, Bool.true_and, Bool.or_eq_false_iff] at h1
    by_cases hB : truthy (getProp data "board") = true
    · obtain ⟨hb, hd⟩ := boardStep_drawn _ data hB h2
      rw [roleStep_seat v data hR] at hd
      simp only [hb, hd, h1.1, Bool.and_false, Bool.or_false]
    · have hB' : truthy (getProp data "board") = false := by simpa using hB
      rw [boardStep_of_no_board _ _ hB', roleStep_fst]
      simp only [hR, Bool.true_and, h1.1, Bool.false_or]
      exact h1.2
  · simp [hR]

theorem frameStep_idem (html : JStr → Markup) (v : ViewModel) (data : JVal) :
    (frameStep html (frameStep html v data).1 data).1 = (frameStep html v data).1 := by
  unfold frameStep
  by_cases hS : statusTextRaises data = true
  · simp only [hS, if_true]
  simp only [hS, Bool.false_eq_true, if_false]
  by_cases h1 : (roleStep v data).2 = true
  · have hw : thenStep (thenStep (roleStep v data) fun v1 => boardStep v1 data)
        (fun v2 => typeStep html v2 data) = roleStep v data := by
      simp [thenStep, h1]
    rw [hw, roleStep_roleStep, hw]
  · have h1' : (roleStep v data).2 = false := by simpa using h1
    by_cases h2 : (boardStep (roleStep v data).1 data).2 = true
    · have hw : thenStep (thenStep (roleStep v data) fun v1 => boardStep v1 data)
          (fun v2 => typeStep html v2 data) = boardStep (roleStep v data).1 data := by
        simp [thenStep, h1', h2]
      rw [hw]
      have hseat : truthy (getProp data "role") = true →
          (boardStep (roleStep v data).1 data).1.seat = getProp data "role" := fun hR => by
        rw [boardStep_seat, roleStep_seat v data hR]
      have hfst := roleStep_fst_of_seat _ data hseat
      unfold thenStep
      by_cases h3 : (roleStep (boardStep (roleStep v data).1 data).1 data).2 = true
      · simp only [h3, if_true, hfst]
      · simp only [h3, Bool.false_eq_true, if_false, hfst, boardStep_idem, h2, if_true]
    · have h2' : (boardStep (roleStep v data).1 data).2 = false := by simpa using h2
      have hw : thenStep (thenStep (roleStep v data) fun v1 => boardStep v1 data)
          (fun v2 => typeStep html v2 data) =
            typeStep html (boardStep (roleStep v data).1 data).1 data := by
        simp [thenStep, h1', h2']
      rw [hw]
      have hwv : (typeStep html (boardStep (roleStep v data).1 data).1 data).1 =
          { (boardStep (roleStep v data).1 data).1 with
            turn := turnAfter (boardStep (roleStep v data).1 data).1.seat
              (boardStep (roleStep v data).1 data).1.turn data } := rfl
      rw [hwv]
      have hr := roleStep_after_board v data h1' h2'
        (turnAfter (boardStep (roleStep v data).1 data).1.seat
          (boardStep (roleStep v data).1 data).1.turn data)
      have hb := boardStep_turn (boardStep (roleStep v data).1 data).1 data
        (turnAfter (boardStep (roleStep v data).1 data).1.seat
          (boardStep (roleStep v data).1 data).1.turn data)
      rw [boardStep_idem, h2'] at hb
      simp only [thenStep, hr, hb, Bool.false_eq_true, if_false]
      simp only [typeStep, turnAfter_idem]

theorem roleFacet_selection (s : Client) (data : JVal) :
    (roleFacet s data).state.selectedSquare = s.selectedSquare ∧
    (roleFacet s data).state.promotion = s.promotion := by
  unfold roleFacet
  simp only
  repeat' split
  all_goals exact ⟨rfl, rfl⟩

theorem boardFacet_selection (s : Client) (data : JVal) :
    (boardFacet s data).state.selectedSquare = s.selectedSquare ∧
    (boardFacet s data).state.promotion = s.promotion := by
  unfold boardFacet
  simp only
  repeat' split
  all_goals exact ⟨rfl, rfl⟩

theorem typeFacet_selection (s : Client) (data : JVal) :
    (typeFacet s data).state.selectedSquare = s.selectedSquare ∧
    (typeFacet s data).state.promotion = s.promotion := by
  unfold typeFacet showGameEndMessage
  simp only
  repeat' split
  all_goals exact ⟨rfl, rfl⟩

theorem andThen_selection {o : Outcome} {k : Client → Outcome} {s : Client}
    (ho : o.state.selectedSquare = s.selectedSquare ∧ o.state.promotion = s.promotion)
    (hk : ∀ s1, (k s1).state.selectedSquare = s1.selectedSquare ∧
      (k s1).state.promotion = s1.promotion) :
    (o.andThen k).state.selectedSquare = s.selectedSquare ∧
      (o.andThen k).state.promotion = s.promotion := by
  unfold Outcome.andThen
  split
  · exact ho
  · exact ⟨(hk _).1.trans ho.1, (hk _).2.trans ho.2⟩

theorem handleServerMessage_selection (s : Client) (data : JVal) :
    (handleServerMessage s data).state.selectedSquare = s.selectedSquare ∧
    (handleServerMessage s data).state.promotion = s.promotion := by
  have key := andThen_selection (k := fun s2 => typeFacet s2 data)
    (andThen_selection (k := fun s1 => boardFacet s1 data)
      (andThen_selection (o := statusFacet s data) (k := fun s0 => roleFacet s0 data)
        (s := s) ⟨rfl, rfl⟩ fun s0 => roleFacet_selection s0 data)
      fun s1 => boardFacet_selection s1 data)
    fun s2 => typeFacet_selection s2 data
  cases data
  case null => exact ⟨rfl, rfl⟩
  case undefined => exact ⟨rfl, rfl⟩
  all_goals exact key

/-- C10: for every client state and every parsed frame, in particular every frame that
carries a board snapshot, applying the frame twice with `handleServerMessage` leaves
the same Game View Model (board, seat, turn state, last-move squares) and the same
selection (selected square and promotion chooser) as applying it once. -/
theorem frame_applied_twice (s : Client) (data : JVal) :
    (handleServerMessage (handleServerMessage s data).state data).state.viewModel =
      (handleServerMessage s data).state.viewModel ∧
    (handleServerMessage (handleServerMessage s data).state data).state.selectedSquare =
      (handleServerMessage s data).state.selectedSquare ∧
    (handleServerMessage (handleServerMessage s data).state data).state.promotion =
      (handleServerMessage s data).state.promotion := by
  refine ⟨?_, (handleServerMessage_selection _ data).1, (handleServerMessage_selection _ data).2⟩
  by_cases h : data ≠ .null ∧ data ≠ .undefined
  · rw [(handleServerMessage_step _ data h).1, (handleServerMessage_step s data h).1,
      handleServerMessage_html, frameStep_idem]
  · have h' : data = .null ∨ data = .undefined := by
      by_contra hc
      exact h ⟨fun e => hc (Or.inl e), fun e => hc (Or.inr e)⟩
    rcases h' with rfl | rfl <;> rfl

/-! ## C4: the turn state after a frame -/

theorem hasKind_unique {data : JVal} {k : String} (other : String)
    (h : hasKind data k = true) (hne : (js k == js other) = false) :
    hasKind data other = false := by
  unfold hasKind at h ⊢
  rw [strictEqStr_eq_true h]
  exact hne

/-- C4, counterexample: the frame `{type: "opponent_move", board: badCellBoard}` applied
to the initial state makes `drawBoard` throw in the board facet, so the event-kind step
never runs and the turn state stays false. -/
theorem turn_state_unset_when_board_facet_raises :
    hasKind opponentMoveBadCell "opponent_move" = true ∧
    (handleServerMessage initial opponentMoveBadCell).raised = true ∧
    (handleServerMessage initial opponentMoveBadCell).state.isMyTurn = false := by
  decide

theorem typeFacet_turn (s : Client) (data : JVal) :
    (typeFacet s data).state.isMyTurn = turnAfter s.myPlayerRole s.isMyTurn data :=
  congrArg ViewModel.turn (typeFacet_step s data).1

theorem typeFacet_seat (s : Client) (data : JVal) :
    (typeFacet s data).state.myPlayerRole = s.myPlayerRole :=
  congrArg ViewModel.seat (typeFacet_step s data).1

theorem facets_isMyTurn (s : Client) (data : JVal) :
    (((statusFacet s data).andThen fun s0 => roleFacet s0 data).andThen
      fun s1 => boardFacet s1 data).state.isMyTurn = s.isMyTurn := by
  have hr : ∀ s0 : Client, (roleFacet s0 data).state.isMyTurn = s0.isMyTurn := fun s0 =>
    congrArg ViewModel.turn ((roleFacet_step s0 data).1.trans (roleStep_fst _ _))
  have hb : ∀ s1 : Client, (boardFacet s1 data).state.isMyTurn = s1.isMyTurn := by
    intro s1
    unfold boardFacet
    simp only
    repeat' split
    all_goals rfl
  unfold Outcome.andThen statusFacet
  simp only
  repeat' split
  all_goals first
    | rfl
    | exact hr s
    | exact (hb _).trans (hr s)

/-- C4, amended: whenever the status-text, seat and board facets of a frame are applied
without raising, the turn state after `handleServerMessage` is determined by the event
kind: `game_start` gives (seat after the frame's seat facet is White), `opponent_move`
gives true, `move_ack`, `opponent_disconnected` and `game_over` give false, and any
other kind, or none, leaves it unchanged. -/
theorem turn_state_after_frame (s : Client) (data : JVal)
    (h : (((statusFacet s data).andThen fun s0 => roleFacet s0 data).andThen
      fun s1 => boardFacet s1 data).raised = false) :
    (hasKind data "game_start" = true →
      (handleServerMessage s data).state.isMyTurn =
        strictEqStr (handleServerMessage s data).state.myPlayerRole "Player 1 (White)") ∧
    (hasKind data "opponent_move" = true →
      (handleServerMessage s data).state.isMyTurn = true) ∧
    (hasKind data "move_ack" = true ∨ hasKind data "opponent_disconnected" = true ∨
        hasKind data "game_over" = true →
      (handleServerMessage s data).state.isMyTurn = false) ∧
    (hasKind data "game_start" = false ∧ hasKind data "opponent_move" = false ∧
        hasKind data "move_ack" = false ∧ hasKind data "opponent_disconnected" = false ∧
        hasKind data "game_over" = false →
      (handleServerMessage s data).state.isMyTurn = s.isMyTurn) := by
  have hpre := facets_isMyTurn s data
  have hnull : ∀ k, (data = .null ∨ data = .undefined) → hasKind data k = false := by
    rintro k (rfl | rfl) <;> rfl
  have hmain : (data = .null ∨ data = .undefined) ∨
      (handleServerMessage s data).state =
        (typeFacet (((statusFacet s data).andThen fun s0 => roleFacet s0 data).andThen
          fun s1 => boardFacet s1 data).state data).state := by
    cases data
    case null => exact Or.inl (Or.inl rfl)
    case undefined => exact Or.inl (Or.inr rfl)
    all_goals
      right
      simp only [handleServerMessage]
      rw [Outcome.andThen, if_neg (by rw [h]; decide)]
  rcases hmain with hn | hm
  · refine ⟨fun hk => ?_, fun hk => ?_, fun hk => ?_, fun _ => ?_⟩
    · rw [hnull _ hn] at hk; cases hk
    · rw [hnull _ hn] at hk; cases hk
    · rw [hnull _ hn, hnull _ hn, hnull _ hn] at hk; simp at hk
    · rcases hn with rfl | rfl <;> rfl
  · rw [hm, typeFacet_turn, typeFacet_seat, hpre]
    unfold turnAfter
    refine ⟨fun hk => ?_, fun hk => ?_, fun hk => ?_, fun hk => ?_⟩
    · simp [hk]
    · have h1 := hasKind_unique "game_start" hk (by decide)
      simp [hk, h1]
    · rcases hk with hk | hk | hk
      · have h1 := hasKind_unique "game_start" hk (by decide)
        have h2 := hasKind_unique "opponent_move" hk (by decide)
        simp [hk, h1, h2]
      · have h1 := hasKind_unique "game_start" hk (by decide)
        have h2 := hasKind_unique "opponent_move" hk (by decide)
        have h3 := hasKind_unique "move_ack" hk (by decide)
        simp [hk, h1, h2, h3]
      · have h1 := hasKind_unique "game_start" hk (by decide)
        have h2 := hasKind_unique "opponent_move" hk (by decide)
        have h3 := hasKind_unique "move_ack" hk (by decide)
        have h4 := hasKind_unique "opponent_disconnected" hk (by decide)
        simp [hk, h1, h2, h3, h4]
    · obtain ⟨h1, h2, h3, h4, h5⟩ := hk
      simp [h1, h2, h3, h4, h5]

/-- Witness for C4: the `game_start` frame for White applied to the initial state. -/
theorem turn_state_after_frame_witness :
    (((statusFacet initial gameStartWhite).andThen
      fun s0 => roleFacet s0 gameStartWhite).andThen
      fun s1 => boardFacet s1 gameStartWhite).raised = false ∧
    hasKind gameStartWhite "game_start" = true ∧
    (handleServerMessage initial gameStartWhite).state.isMyTurn =
      strictEqStr (handleServerMessage initial gameStartWhite).state.myPlayerRole
        "Player 1 (White)" :=
  ⟨by decide, by decide,
    (turn_state_after_frame initial gameStartWhite (by decide)).1 (by decide)⟩

/-! ## C8: the failure path of the message handler -/

/-- C8, counterexample: handling the frame `{board: badCellBoard}` in the initial state
throws inside `drawBoard`, after `currentBoardState` has been assigned: the failure path
runs and the Game View Model differs from the one before. -/
theorem failed_frame_keeps_assignments :
    (handleServerMessage initial badCellFrame).raised = true ∧
    (onmessage initial (some badCellFrame)).viewModel ≠ initial.viewModel := by
  refine ⟨by decide, fun h => ?_⟩
  have h2 : truthy (onmessage initial (some badCellFrame)).viewModel.board =
      truthy initial.viewModel.board := by rw [h]
  revert h2
  decide

theorem handleServerMessage_of_status (s : Client) (data : JVal)
    (h : data = .null ∨ data = .undefined ∨ statusTextRaises data = true) :
    handleServerMessage s data = ⟨s, true⟩ := by
  rcases h with rfl | rfl | h
  · rfl
  · rfl
  · cases data
    case null => rfl
    case undefined => rfl
    all_goals simp only [handleServerMessage, statusFacet, Outcome.andThen, h, if_true]

theorem obj_of_truthy_prop {data : JVal} {name : String}
    (h : truthy (getProp data name) = true) : data ≠ .null ∧ data ≠ .undefined := by
  constructor <;> rintro rfl <;> simp [getProp, truthy] at h

theorem boardStep_fst (v : ViewModel) (data : JVal) :
    (boardStep v data).1 =
      { board := if truthy (getProp data "board") then getProp data "board" else v.board
        seat := v.seat
        turn := v.turn
        lastMove := lastMoveAfter v.lastMove data } := by
  unfold boardStep lastMoveAfter
  by_cases hB : truthy (getProp data "board") = true
  · simp only [hB, if_true]
    cases hm : getProp data "move" with
    | str m =>
      by_cases hl : m.length = 4
      · have : truthy (JVal.str m) = true := by
          cases m with
          | nil => simp at hl
          | cons a r => rfl
        simp [this, jsLength, strictEqNum, hl]
      · have : strictEqNum (jsLength (JVal.str m)) 4 = false := by
          simp only [jsLength, strictEqNum]
          simpa using fun h => hl (by exact_mod_cast h)
        simp [this, hl]
    | _ => simp only []; split_ifs <;> rfl
  · simp [hB]

theorem boardStep_raised_board (v : ViewModel) (data : JVal)
    (h : (boardStep v data).2 = true) : truthy (getProp data "board") = true := by
  by_contra hB
  rw [boardStep_of_no_board v data (by simpa using hB)] at h
  cases h

theorem turnAfter_of_typeRaises (html : JStr → Markup) (seat : JVal) (turn : Bool)
    (data : JVal) (h : typeRaises html data = true) :
    turnAfter seat turn data = hasKind data "opponent_move" := by
  unfold typeRaises at h
  unfold turnAfter
  by_cases h1 : hasKind data "game_start" = true
  · simp [h1] at h
  · by_cases h2 : hasKind data "opponent_move" = true
    · simp [h1, h2]
    · by_cases h3 : hasKind data "move_ack" = true
      · simp [h1, h2, h3]
      · by_cases h4 : hasKind data "opponent_disconnected" = true
        · simp [h1, h2, h3, h4]
        · by_cases h5 : hasKind data "game_over" = true
          · simp [h1, h2, h3, h4, h5]
          · simp [h1, h2, h3, h4, h5] at h

theorem failure_cases (s : Client) (data : JVal)
    (h : (handleServerMessage s data).raised = true) :
    data = .null ∨ data = .undefined ∨ statusTextRaises data = true ∨
    (roleFacet s data).raised = true ∨
    (boardFacet (roleFacet s data).state data).raised = true ∨
    (typeFacet (boardFacet (roleFacet s data).state data).state data).raised = true := by
  by_cases hn : data ≠ .null ∧ data ≠ .undefined
  · have hR := roleFacet_step s data
    have hB := boardFacet_step (roleFacet s data).state data
    have hT := typeFacet_step (boardFacet (roleFacet s data).state data).state data
    rw [hR.1] at hB
    rw [hB.1, hB.2.2, hR.2.2] at hT
    rw [(handleServerMessage_step s data hn).2.1] at h
    rw [hR.2.1, hB.2.1, hT.2.1]
    unfold frameStep thenStep at h
    by_cases hS : statusTextRaises data = true
    · exact Or.inr (Or.inr (Or.inl hS))
    · by_cases hr : (roleStep s.viewModel data).2 = true
      · exact Or.inr (Or.inr (Or.inr (Or.inl hr)))
      · by_cases hb : (boardStep (roleStep s.viewModel data).1 data).2 = true
        · exact Or.inr (Or.inr (Or.inr (Or.inr (Or.inl hb))))
        · simp only [hS, hr, hb, Bool.false_eq_true, if_false] at h
          exact Or.inr (Or.inr (Or.inr (Or.inr (Or.inr h))))
  · by_contra hc
    exact hn ⟨fun e => hc (Or.inl e), fun e => hc (Or.inr (Or.inl e))⟩

/-- C8, amended: on the failure path the Game View Model is the one before the handler
exactly when the throw comes before the first assignment: `JSON.parse` throws, the
parsed value is null, or the status text of line 68 cannot be converted to a string.
Otherwise the frame stays applied up to the statement that throws.  A throw in the seat
facet leaves the seat replaced by `data.role` and the rest as before.  A throw in the
board facet leaves the seat of the frame and `data.board` applied, the last-move squares
replaced when `data.move` is a string of 4 code units, and the turn state as before.  A
throw in the event-kind step leaves seat, board and last move of the frame applied and
the turn state set by the kind: true for `opponent_move`, false otherwise.  These are
all the ways the handler can fail. -/
theorem failure_path_state (s : Client) (data : JVal) :
    onmessage s none = s ∧
    (data = .null ∨ statusTextRaises data = true →
      (handleServerMessage s data).raised = true ∧ onmessage s (some data) = s) ∧
    (statusTextRaises data = false → (roleFacet s data).raised = true →
      (handleServerMessage s data).raised = true ∧
      (onmessage s (some data)).viewModel =
        { s.viewModel with seat := getProp data "role" }) ∧
    (statusTextRaises data = false → (roleFacet s data).raised = false →
      (boardFacet (roleFacet s data).state data).raised = true →
      (handleServerMessage s data).raised = true ∧
      (onmessage s (some data)).viewModel =
        { board := getProp data "board"
          seat := if truthy (getProp data "role") then getProp data "role"
            else s.myPlayerRole
          turn := s.isMyTurn
          lastMove := lastMoveAfter s.lastMoveSquares data }) ∧
    (statusTextRaises data = false → (roleFacet s data).raised = false →
      (boardFacet (roleFacet s data).state data).raised = false →
      (typeFacet (boardFacet (roleFacet s data).state data).state data).raised = true →
      (handleServerMessage s data).raised = true ∧
      (onmessage s (some data)).viewModel =
        { board := if truthy (getProp data "board") then getProp data "board"
            else s.currentBoardState
          seat := if truthy (getProp data "role") then getProp data "role"
            else s.myPlayerRole
          turn := hasKind data "opponent_move"
          lastMove := lastMoveAfter s.lastMoveSquares data }) ∧
    ((handleServerMessage s data).raised = true →
      data = .null ∨ data = .undefined ∨ statusTextRaises data = true ∨
      (roleFacet s data).raised = true ∨
      (boardFacet (roleFacet s data).state data).raised = true ∨
      (typeFacet (boardFacet (roleFacet s data).state data).state data).raised = true) := by
  have hR := roleFacet_step s data
  have hB := boardFacet_step (roleFacet s data).state data
  have hT := typeFacet_step (boardFacet (roleFacet s data).state data).state data
  rw [hR.1] at hB
  rw [hB.1, hB.2.2, hR.2.2] at hT
  refine ⟨rfl, ?_, ?_, ?_, ?_, failure_cases s data⟩
  · intro h
    have := handleServerMessage_of_status s data
      (h.elim Or.inl fun h' => Or.inr (Or.inr h'))
    simp only [onmessage, this, and_self]
  · intro hS hr
    rw [hR.2.1] at hr
    have hrole : truthy (getProp data "role") = true := by
      rw [roleStep_snd] at hr
      simp only [Bool.and_eq_true] at hr
      exact hr.1
    have hstep := handleServerMessage_step s data (obj_of_truthy_prop hrole)
    have hfs : frameStep s.html s.viewModel data = roleStep s.viewModel data := by
      unfold frameStep thenStep
      simp only [hS, hr, Bool.false_eq_true, if_false, if_true]
    simp only [onmessage]
    rw [hstep.1, hstep.2.1, hfs]
    refine ⟨hr, ?_⟩
    rw [roleStep_fst, if_pos hrole]
  · intro hS hr hb
    rw [hR.2.1] at hr
    rw [hB.2.1] at hb
    have hboard := boardStep_raised_board _ data hb
    have hstep := handleServerMessage_step s data (obj_of_truthy_prop hboard)
    have hfs : frameStep s.html s.viewModel data =
        boardStep (roleStep s.viewModel data).1 data := by
      unfold frameStep thenStep
      simp only [hS, hr, hb, Bool.false_eq_true, if_false, if_true]
    simp only [onmessage]
    rw [hstep.1, hstep.2.1, hfs]
    refine ⟨hb, ?_⟩
    rw [boardStep_fst, roleStep_fst, if_pos hboard]
    rfl
  · intro hS hr hb ht
    rw [hR.2.1] at hr
    rw [hB.2.1] at hb
    rw [hT.2.1] at ht
    have htr : typeRaises s.html data = true := ht
    have hnn : data ≠ .null ∧ data ≠ .undefined := by
      constructor
      · rintro rfl
        have h0 : typeRaises s.html .null = false := rfl
        rw [h0] at htr; cases htr
      · rintro rfl
        have h0 : typeRaises s.html .undefined = false := rfl
        rw [h0] at htr; cases htr
    have hstep := handleServerMessage_step s data hnn
    have hfs : frameStep s.html s.viewModel data =
        typeStep s.html (boardStep (roleStep s.viewModel data).1 data).1 data := by
      unfold frameStep thenStep
      simp only [hS, hr, hb, Bool.false_eq_true, if_false]
    simp only [onmessage]
    rw [hstep.1, hstep.2.1, hfs]
    refine ⟨ht, ?_⟩
    show ({ (boardStep (roleStep s.viewModel data).1 data).1 with
      turn := turnAfter (boardStep (roleStep s.viewModel data).1 data).1.seat
        (boardStep (roleStep s.viewModel data).1 data).1.turn data } : ViewModel) = _
    rw [turnAfter_of_typeRaises s.html _ _ data htr, boardStep_fst, roleStep_fst]
    rfl

/-- Witness for C8: a frame with an unconvertible status text leaves White's state
untouched; `{role: {"toString": 1}}` throws at line 80 with the seat already replaced;
the frame with the undrawable board throws in `drawBoard` with seat, board and last
move applied and the turn state as before; the `game_over` frame with an unconvertible
winner throws at line 221 with seat, board and last move applied and the turn state
false. -/
theorem failure_path_state_witness :
    statusTextRaises unprintableStatusFrame = true ∧
    onmessage whiteToMove (some unprintableStatusFrame) = whiteToMove ∧
    (roleFacet initial unprintableRoleFrame).raised = true ∧
    (onmessage initial (some unprintableRoleFrame)).viewModel =
      { initial.viewModel with seat := unprintable } ∧
    (boardFacet (roleFacet initial badCellMoveFrame).state badCellMoveFrame).raised = true ∧
    (onmessage initial (some badCellMoveFrame)).viewModel =
      { board := badCellBoard
        seat := blackRole
        turn := false
        lastMove := ⟨some (js "e2"), some (js "e4")⟩ } ∧
    (typeFacet (boardFacet (roleFacet initial unprintableWinnerFrame).state
      unprintableWinnerFrame).state unprintableWinnerFrame).raised = true ∧
    (onmessage initial (some unprintableWinnerFrame)).viewModel =
      { board := sampleBoard
        seat := blackRole
        turn := false
        lastMove := ⟨some (js "e2"), some (js "e4")⟩ } :=
  ⟨by decide,
    ((failure_path_state whiteToMove unprintableStatusFrame).2.1 (Or.inr (by decide))).2,
    by decide,
    ((failure_path_state initial unprintableRoleFrame).2.2.1 (by decide) (by decide)).2,
    by decide,
    ((failure_path_state initial badCellMoveFrame).2.2.2.1 (by decide) (by decide)
      (by decide)).2,
    by decide,
    ((failure_path_state initial unprintableWinnerFrame).2.2.2.2.1 (by decide) (by decide)
      (by decide) (by decide)).2⟩

/-! ## C9: the seat over a connection -/

theorem frameStep_seat (html : JStr → Markup) (v : ViewModel) (data : JVal) :
    (frameStep html v data).1.seat =
      if statusTextRaises data = false ∧ truthy (getProp data "role") = true then
        getProp data "role"
      else v.seat := by
  have h1 : (roleStep v data).1.seat =
      if truthy (getProp data "role") then getProp data "role" else v.seat := by
    rw [roleStep_fst]
  unfold frameStep
  by_cases hS : statusTextRaises data = true
  · simp [hS]
  · have key : (thenStep (thenStep (roleStep v data) fun v1 => boardStep v1 data)
        fun v2 => typeStep html v2 data).1.seat = (roleStep v data).1.seat := by
      unfold thenStep
      split_ifs
      · rfl
      · exact boardStep_seat _ data
      · exact boardStep_seat _ data
    rw [if_neg hS, key, h1]
    simp [hS]

theorem handleServerMessage_seat (s : Client) (data : JVal) :
    (handleServerMessage s data).state.myPlayerRole =
      if statusTextRaises data = false ∧ truthy (getProp data "role") = true then
        getProp data "role"
      else s.myPlayerRole := by
  by_cases h : data ≠ .null ∧ data ≠ .undefined
  · have := congrArg ViewModel.seat (handleServerMessage_step s data h).1
    rw [frameStep_seat] at this
    exact this
  · have h' : data = .null ∨ data = .undefined := by
      by_contra hc
      exact h ⟨fun e => hc (Or.inl e), fun e => hc (Or.inr e)⟩
    rcases h' with rfl | rfl <;> rfl

/-- C9, counterexample: after `game_start` has assigned White, the later frame
`{role: "Player 2 (Black)"}` on the same connection changes the seat to Black. -/
theorem seat_replaced_by_later_frame :
    strictEqStr (step initial (.message (some gameStartWhite))).myPlayerRole
      "Player 1 (White)" = true ∧
    strictEqStr (run initial [.message (some gameStartWhite),
      .message (some blackRoleFrame)]).myPlayerRole "Player 1 (White)" = false ∧
    strictEqStr (run initial [.message (some gameStartWhite),
      .message (some blackRoleFrame)]).myPlayerRole "Player 2 (Black)" = true := by
  decide

/-- C9, amended: the seat is the role value of the most recent frame that carried a
truthy `role` and whose status text (line 68) could be converted: such a frame sets the
seat to its role value, also when it differs from the seat assigned before, and every
other frame leaves the seat; hence over any sequence of frames each of which carries no
role or the role already assigned, the seat stays equal to the assigned value. -/
theorem seat_after_frames (s : Client) (frames : List JVal)
    (h : ∀ f ∈ frames, truthy (getProp f "role") = false ∨
      getProp f "role" = s.myPlayerRole) :
    (run s (frames.map fun f => Event.message (some f))).myPlayerRole = s.myPlayerRole ∧
    (∀ (s1 : Client) (data : JVal),
      (handleServerMessage s1 data).state.myPlayerRole =
        if statusTextRaises data = false ∧ truthy (getProp data "role") = true then
          getProp data "role"
        else s1.myPlayerRole) := by
  refine ⟨?_, handleServerMessage_seat⟩
  induction frames generalizing s with
  | nil => rfl
  | cons f rest ih =>
    have hf : (step s (.message (some f))).myPlayerRole = s.myPlayerRole := by
      show (handleServerMessage s f).state.myPlayerRole = s.myPlayerRole
      rw [handleServerMessage_seat]
      rcases h f (List.mem_cons_self _ _) with h0 | h0
      · simp [h0]
      · split
        · exact h0
        · rfl
    have := ih (step s (.message (some f))) fun g hg => by
      rw [hf]; exact h g (List.mem_cons_of_mem _ hg)
    rw [hf] at this
    exact this

/-- Witness for C9: after White has been assigned, an `opponent_disconnected` frame and
a repeated `game_start` for White leave the seat White. -/
theorem seat_after_frames_witness :
    (run whiteToMove ([opponentDisconnected, gameStartWhite].map
      fun f => Event.message (some f))).myPlayerRole = whiteToMove.myPlayerRole :=
  (seat_after_frames whiteToMove [opponentDisconnected, gameStartWhite] (by
    intro f hf
    simp only [List.mem_cons, List.mem_singleton, List.not_mem_nil, or_false] at hf
    rcases hf with rfl | rfl
    · exact Or.inl (by decide)
    · exact Or.inr rfl)).1

/-! ## C7: the stored board -/

/-- C7 (evaluated at the failing input): the frame `{board: sevenRowBoard}` is handled
without raising and leaves the seven-row array in `currentBoardState`; only the
rendering replaces it, by 64 empty cells. -/
theorem seven_row_board_stored :
    (handleServerMessage initial sevenRowFrame).raised = false ∧
    (∃ rows, (handleServerMessage initial sevenRowFrame).state.currentBoardState = .arr rows ∧
      rows.length = 7) ∧
    (handleServerMessage initial sevenRowFrame).state.squares.length = 64 ∧
    (handleServerMessage initial sevenRowFrame).state.squares.all
      (fun sq => sq.text == [] && sq.pieceClass == none) = true :=
  ⟨by decide, ⟨_, rfl, by decide⟩, by decide, by decide⟩

/-! ## C2: the format of emitted moves -/

/-- C2 (evaluated at the failing input): the `game_over` frame whose message is the
markup of a button of class `promotion-piece` puts that button into the game-end
overlay; when White then opens the promotion chooser for a7-a8, line 536 attaches the
chooser's listener to it as well, and a click on it passes `"a7a8xyz"` to `sendMove`
and on to the socket: seven code units, not a wire move string. -/
theorem injected_button_sends_malformed_move :
    (step initial (.message (some injectingFrame))).gameEndPieces =
      [⟨some (js "xyz"), []⟩] ∧
    (run initial [.opened, .message (some injectingFrame), .message (some gameStartWhite),
      .squareClick 8, .squareClick 0]).gameEndPieces =
      [⟨some (js "xyz"), [(js "a7", js "a8")]⟩] ∧
    (run initial [.opened, .message (some injectingFrame), .message (some gameStartWhite),
      .squareClick 8, .squareClick 0, .injectedClick 0]).sendMoveCalls = [js "a7a8xyz"] ∧
    (run initial [.opened, .message (some injectingFrame), .message (some gameStartWhite),
      .squareClick 8, .squareClick 0, .injectedClick 0]).sent = [js "a7a8xyz"] ∧
    ¬WellFormedMove (js "a7a8xyz") := by
  refine ⟨by decide, by decide, by decide, by decide, fun h => ?_⟩
  have := wellFormedMove_length h
  revert this
  decide

end JSocket
